import Mathlib

/-!
Verification of the operator-lowering routines in tf2onnx/onnx_opset/rnn.py:
the LSTMBlockCell single-step lowering and the CudnnRNN multi-layer lowering.

The lowering routines are embedded shallowly: each `ctx.make_node`,
`ctx.make_const`, `ctx.replace_all_inputs`/`copy_dtype`/`copy_shape` and
`ctx.remove_node` call is recorded as an event in a trace, and the numeric
dataflow of the LSTMBlockCell subgraph is given directly as rational-valued
tensor functions (one batch row; activations are parameters, so every result
is activation-independent).  Errors raised before the routine completes are
modelled with `Except`, paired with the trace of events emitted before the
failure.
-/

set_option maxHeartbeats 1000000

namespace RnnLower

/-- ONNX element types appearing in this lowering. -/
inductive Dtype
  | float32
  | float16
  | float64
  | int64
  deriving DecidableEq

/-- Attribute values attached to created primitive nodes. -/
inductive AttrV
  | str (v : String)
  | int (v : ℤ)
  | ints (v : List ℤ)
  | flt (v : ℚ)
  deriving DecidableEq

/-- Payload of a constant created through `ctx.make_const`. -/
inductive ConstData
  | scalar (v : ℚ) (dt : Dtype)
  | vec (vals : List ℚ) (dt : Dtype)
  | ivec (vals : List ℤ)
  deriving DecidableEq

/-- The element type a constant payload carries, when it is a float tensor. -/
def ConstData.dtypeOf : ConstData → Option Dtype
  | .scalar _ dt => some dt
  | .vec _ dt => some dt
  | .ivec _ => none

/-- One graph-context mutation performed by a lowering routine, in program
order: node creation (with operator kind, input refs, output refs,
attributes), constant creation, one `replace_output` rewiring call (recorded
by the old output reference it replaces), and node removal. -/
inductive GEvent
  | node (op : String) (inputs : List String) (outputs : List String)
      (attrs : List (String × AttrV))
  | const (name : String) (data : ConstData)
  | replaceOut (old : String)
  | remove (name : String)
  deriving DecidableEq

/-- Errors a lowering routine can raise: the RuntimeError on a bad weight
shape, and the `utils.make_sure` failures on unsupported attributes. -/
inductive LowerErr
  | shapeMismatch (msg : String)
  | unsupported (msg : String)
  deriving DecidableEq

/-- Concatenation of two vectors along the feature axis
(`Concat(x, h_prev, axis=1)` on one batch row). -/
def concatVec {m n : ℕ} (u : Fin m → ℚ) (v : Fin n → ℚ) : Fin (m + n) → ℚ :=
  fun k =>
    if h : (k : ℕ) < m then u ⟨k, h⟩
    else v ⟨(k : ℕ) - m, by have hk := k.isLt; omega⟩

/-- Index of element `j` of the `g`-th of the four equal split pieces of a
`4*hS`-wide tensor (`Split(axis=1, split=[hS,hS,hS,hS])`). -/
def gateIdx (hS : ℕ) (g : Fin 4) (j : Fin hS) : Fin (4 * hS) :=
  ⟨(g : ℕ) * hS + (j : ℕ), by
    have hg : (g : ℕ) < 4 := g.isLt
    have hj : (j : ℕ) < hS := j.isLt
    have h1 : ((g : ℕ) + 1) * hS ≤ 4 * hS := Nat.mul_le_mul_right hS hg
    have h2 : (g : ℕ) * hS + (j : ℕ) < ((g : ℕ) + 1) * hS := by
      rw [Nat.succ_mul]; omega
    omega⟩

/-- Semantics of the attribute-form Clip node (`Clip(x, min=m, max=M)`,
target opset below 11): `y = min(max(x, m), M)`. -/
def clipV6 (minV maxV x : ℚ) : ℚ := min (max x minV) maxV

/-- Semantics of the constant-input-form Clip node
(`Clip(x, min_const, max_const)`, target opset 11 and above):
`y = min(max(x, m), M)`. -/
def clipV11 (minV maxV x : ℚ) : ℚ := min (max x minV) maxV

/-- Arguments of one `LSTMBlockCell.version_1` invocation: the fused node's
name, its 7 output references, the 8 input tensors (one batch row; `w` is the
packed weight matrix), the declared shape `ctx.get_shape(w)`, the three
attributes, the element type `ctx.get_dtype` reports for the cell state, the
target opset, and the scalar semantics of the Sigmoid and Tanh primitives. -/
structure LSTMArgs (nI hS : ℕ) where
  name : String
  outs : Fin 7 → String
  x : Fin nI → ℚ
  cs_prev : Fin hS → ℚ
  h_prev : Fin hS → ℚ
  w : Fin (nI + hS) → Fin (4 * hS) → ℚ
  wci : Fin hS → ℚ
  wcf : Fin hS → ℚ
  wco : Fin hS → ℚ
  b : Fin (4 * hS) → ℚ
  wShape : List ℤ
  forget_bias : ℚ
  cell_clip : ℚ
  use_peephole : Bool
  csDtype : Dtype
  opset : ℕ
  sig : ℚ → ℚ
  tanhF : ℚ → ℚ

/-- The seven replacement values the lowering rewires onto the fused node's
outputs, field `k` being bound to output slot `k` in the order the source
performs the seven `replace_output` calls: i, cs, f, o, ci, co, h. -/
structure LSTMOut (hS : ℕ) where
  i : Fin hS → ℚ
  cs : Fin hS → ℚ
  f : Fin hS → ℚ
  o : Fin hS → ℚ
  ci : Fin hS → ℚ
  co : Fin hS → ℚ
  h : Fin hS → ℚ

/-- `w_last_dim = int(w_shape[1] / 4)`. -/
def wLastDim (wShape : List ℤ) : ℕ := ((wShape.getD 1 0).tdiv 4).toNat

/-- `gates = MatMul(Concat(x, h_prev), w) + b`. -/
def lstmGates {nI hS : ℕ} (a : LSTMArgs nI hS) : Fin (4 * hS) → ℚ :=
  fun j => (Finset.univ.sum fun k => concatVec a.x a.h_prev k * a.w k j) + a.b j

/-- The four split pieces `i, ci, f, o` of the affine result. -/
def lstmPre {nI hS : ℕ} (a : LSTMArgs nI hS) (g : Fin 4) : Fin hS → ℚ :=
  fun j => lstmGates a (gateIdx hS g j)

/-- `f = f + forget_bias`. -/
def lstmFPre {nI hS : ℕ} (a : LSTMArgs nI hS) : Fin hS → ℚ :=
  fun j => lstmPre a 2 j + a.forget_bias

/-- The effective input-gate peephole weight: the original tensor when
`use_peephole` is set, otherwise the zero vector the routine substitutes. -/
def lstmWci {nI hS : ℕ} (a : LSTMArgs nI hS) : Fin hS → ℚ :=
  if a.use_peephole then a.wci else fun _ => 0

/-- The effective forget-gate peephole weight. -/
def lstmWcf {nI hS : ℕ} (a : LSTMArgs nI hS) : Fin hS → ℚ :=
  if a.use_peephole then a.wcf else fun _ => 0

/-- The effective output-gate peephole weight. -/
def lstmWco {nI hS : ℕ} (a : LSTMArgs nI hS) : Fin hS → ℚ :=
  if a.use_peephole then a.wco else fun _ => 0

/-- `i = sigmoid(cs_prev .* wci + i)`. -/
def lstmI {nI hS : ℕ} (a : LSTMArgs nI hS) : Fin hS → ℚ :=
  fun j => a.sig (a.cs_prev j * lstmWci a j + lstmPre a 0 j)

/-- `f = sigmoid(cs_prev .* wcf + f)`. -/
def lstmF {nI hS : ℕ} (a : LSTMArgs nI hS) : Fin hS → ℚ :=
  fun j => a.sig (a.cs_prev j * lstmWcf a j + lstmFPre a j)

/-- `ci = Tanh(ci)`. -/
def lstmCi {nI hS : ℕ} (a : LSTMArgs nI hS) : Fin hS → ℚ :=
  fun j => a.tanhF (lstmPre a 1 j)

/-- `cs = ci .* i + cs_prev .* f`, before any clipping. -/
def lstmCsRaw {nI hS : ℕ} (a : LSTMArgs nI hS) : Fin hS → ℚ :=
  fun j => lstmCi a j * lstmI a j + a.cs_prev j * lstmF a j

/-- The cell state actually produced: clipped through the opset-dependent
Clip form when `cell_clip > 0`, untouched otherwise. -/
def lstmCs {nI hS : ℕ} (a : LSTMArgs nI hS) : Fin hS → ℚ :=
  if 0 < a.cell_clip then
    if a.opset < 11 then fun j => clipV6 (-a.cell_clip) a.cell_clip (lstmCsRaw a j)
    else fun j => clipV11 (-a.cell_clip) a.cell_clip (lstmCsRaw a j)
  else lstmCsRaw a

/-- `o = sigmoid(cs .* wco + o)`. -/
def lstmO {nI hS : ℕ} (a : LSTMArgs nI hS) : Fin hS → ℚ :=
  fun j => a.sig (lstmCs a j * lstmWco a j + lstmPre a 3 j)

/-- `co = Tanh(cs)`. -/
def lstmCo {nI hS : ℕ} (a : LSTMArgs nI hS) : Fin hS → ℚ :=
  fun j => a.tanhF (lstmCs a j)

/-- `h = co .* o`. -/
def lstmH {nI hS : ℕ} (a : LSTMArgs nI hS) : Fin hS → ℚ :=
  fun j => lstmCo a j * lstmO a j

/-- The seven replacement values, in output-slot order. -/
def lstmOutOf {nI hS : ℕ} (a : LSTMArgs nI hS) : LSTMOut hS :=
  { i := lstmI a, cs := lstmCs a, f := lstmF a, o := lstmO a,
    ci := lstmCi a, co := lstmCo a, h := lstmH a }

/-- The three events of one `make_sigmoid(i, w, b)` call. -/
def makeSigmoidEvs : List GEvent :=
  [GEvent.node "Mul" [] [] [], GEvent.node "Add" [] [] [],
   GEvent.node "Sigmoid" [] [] []]

/-- The events of the conditional `cs = clip(cs)` block: below opset 11 a
single Clip node carrying its bounds as attributes; from opset 11 on two
scalar constants of the cell state's element type plus a Clip node taking
them as inputs. -/
def lstmClipEvs {nI hS : ℕ} (a : LSTMArgs nI hS) : List GEvent :=
  if 0 < a.cell_clip then
    if a.opset < 11 then
      [GEvent.node "Clip" [] []
        [("max", AttrV.flt a.cell_clip), ("min", AttrV.flt (-a.cell_clip))]]
    else
      [GEvent.const (a.name ++ "_min") (ConstData.scalar (-a.cell_clip) a.csDtype),
       GEvent.const (a.name ++ "_max") (ConstData.scalar a.cell_clip a.csDtype),
       GEvent.node "Clip" [] [] []]
  else []

/-- The zero-filled peephole constant emitted when peepholes are disabled:
a vector of `w_last_dim` float32 zeros. -/
def lstmPeepEvs {nI hS : ℕ} (a : LSTMArgs nI hS) : List GEvent :=
  if a.use_peephole then []
  else
    [GEvent.const (a.name ++ "__zeros_const")
      (ConstData.vec (List.replicate (wLastDim a.wShape) 0) Dtype.float32)]

/-- The full event trace of a successful `LSTMBlockCell.version_1` run, in
source order: Concat, MatMul, Add, Split, forget-bias constant, Add,
optional zeros constant, two sigmoid blocks, Tanh, Mul, Mul, Add, the
optional clip block, one more sigmoid block, Tanh, Mul, and the seven
`replace_output` calls on the fused node's outputs 0..6. -/
def lstmTraceOf {nI hS : ℕ} (a : LSTMArgs nI hS) : List GEvent :=
  [GEvent.node "Concat" [] [] [("axis", AttrV.int 1)],
   GEvent.node "MatMul" [] [] [],
   GEvent.node "Add" [] [] [],
   GEvent.node "Split" [] []
     [("axis", AttrV.int 1),
      ("split", AttrV.ints (List.replicate 4 (wLastDim a.wShape : ℤ)))],
   GEvent.const (a.name ++ "__forget_bias")
     (ConstData.scalar a.forget_bias Dtype.float32),
   GEvent.node "Add" [] [] []]
  ++ lstmPeepEvs a
  ++ makeSigmoidEvs ++ makeSigmoidEvs
  ++ [GEvent.node "Tanh" [] [] [],
      GEvent.node "Mul" [] [] [],
      GEvent.node "Mul" [] [] [],
      GEvent.node "Add" [] [] []]
  ++ lstmClipEvs a
  ++ makeSigmoidEvs
  ++ [GEvent.node "Tanh" [] [] [],
      GEvent.node "Mul" [] [] []]
  ++ [GEvent.replaceOut (a.outs 0), GEvent.replaceOut (a.outs 1),
      GEvent.replaceOut (a.outs 2), GEvent.replaceOut (a.outs 3),
      GEvent.replaceOut (a.outs 4), GEvent.replaceOut (a.outs 5),
      GEvent.replaceOut (a.outs 6)]

/-- Embedding of `LSTMBlockCell.version_1`: emits the Concat and MatMul
nodes, then checks `len(w_shape) != 2 or w_shape[1] % 4 != 0` and raises the
RuntimeError naming the fused node on violation; otherwise finishes the
trace and produces the seven replacement values. -/
def lstmBlockCell {nI hS : ℕ} (a : LSTMArgs nI hS) :
    List GEvent × Except LowerErr (LSTMOut hS) :=
  if a.wShape.length ≠ 2 ∨ a.wShape.getD 1 0 % 4 ≠ 0 then
    ([GEvent.node "Concat" [] [] [("axis", AttrV.int 1)],
      GEvent.node "MatMul" [] [] []],
     .error (.shapeMismatch
       ("shape of W of LSTMBlockCell " ++ a.name ++ " should be times of 4")))
  else
    (lstmTraceOf a, .ok (lstmOutOf a))

/-! ### The specification's closed-form gated-cell equations (section 4.1)

The following definitions are written from the specification's equations,
not from the source, to be compared with the embedding above. -/

/-- The spec's seven outputs, in its fixed order: in_gate, cell_state,
forget, out_gate, cell_input, cell_tanh, hidden. -/
structure SpecGatedOut (hS : ℕ) where
  in_gate : Fin hS → ℚ
  cell_state : Fin hS → ℚ
  forget : Fin hS → ℚ
  out_gate : Fin hS → ℚ
  cell_input : Fin hS → ℚ
  cell_tanh : Fin hS → ℚ
  hidden : Fin hS → ℚ

/-- Elementwise restriction of a value to the range from `lo` to `hi`
(the spec's symmetric clamp, instantiated at `lo = -bound`, `hi = bound`). -/
def clampTo (lo hi x : ℚ) : ℚ := max lo (min x hi)

/-- The closed-form equations of spec section 4.1, evaluated directly on the
fused node's input tensors: concat, single affine step, 4-way split,
forget-bias add, peephole terms (zero vectors when disabled), sigmoid/tanh
gates, and the conditionally clamped cell state. -/
def specGatedCell {nI hS : ℕ} (a : LSTMArgs nI hS) : SpecGatedOut hS :=
  let xh := concatVec a.x a.h_prev
  let gates := fun j => (Finset.univ.sum fun k => xh k * a.w k j) + a.b j
  let in_gate_pre := fun j => gates (gateIdx hS 0 j)
  let cellin_pre := fun j => gates (gateIdx hS 1 j)
  let forget_pre := fun j => gates (gateIdx hS 2 j)
  let out_gate_pre := fun j => gates (gateIdx hS 3 j)
  let forget_pre2 := fun j => forget_pre j + a.forget_bias
  let peephole_in := if a.use_peephole then a.wci else fun _ => 0
  let peephole_forget := if a.use_peephole then a.wcf else fun _ => 0
  let peephole_out := if a.use_peephole then a.wco else fun _ => 0
  let in_gate := fun j => a.sig (a.cs_prev j * peephole_in j + in_gate_pre j)
  let forget := fun j => a.sig (a.cs_prev j * peephole_forget j + forget_pre2 j)
  let cell_input := fun j => a.tanhF (cellin_pre j)
  let cell_state0 := fun j => cell_input j * in_gate j + a.cs_prev j * forget j
  let cell_state :=
    if 0 < a.cell_clip then
      fun j => clampTo (-a.cell_clip) a.cell_clip (cell_state0 j)
    else cell_state0
  let out_gate := fun j => a.sig (cell_state j * peephole_out j + out_gate_pre j)
  let cell_tanh := fun j => a.tanhF (cell_state j)
  let hidden := fun j => cell_tanh j * out_gate j
  { in_gate := in_gate, cell_state := cell_state, forget := forget,
    out_gate := out_gate, cell_input := cell_input, cell_tanh := cell_tanh,
    hidden := hidden }

/-! ### The CudnnRNN multi-layer lowering -/

/-- Arguments of one `CudnnRNN.version_11` invocation: the fused node's
name, the references of its first, second and fourth inputs (sequence input
`X`, initial hidden states `H`, packed parameter blob `P`), its first two
output references, the declared shapes of `X` and `H`, and the four mode
attributes. -/
structure CudnnArgs where
  name : String
  xName : String
  hName : String
  pName : String
  out0 : String
  out1 : String
  xShape : List ℤ
  hShape : List ℤ
  rnn_mode : String
  dropout : ℚ
  input_mode : String
  direction : String

/-- The routine's local name helper `NM(nm) = node.name + "_" + nm`. -/
def cudnnNM (name nm : String) : String := name ++ "_" ++ nm

/-- Name of the forward chain value feeding layer `m`'s forward GRU: the
original sequence input for layer 0, afterwards the squeezed forward output
of the previous layer (`XNF = NM(X + "_" + str(i*num_dirs))`). -/
def fwdChainName (name xName : String) (numDirs : ℕ) : ℕ → String
  | 0 => xName
  | m + 1 => cudnnNM name (xName ++ "_" ++ toString (m * numDirs))

/-- Name of the backward chain value feeding layer `m`'s reverse GRU: the
original sequence input for layer 0, afterwards the squeezed reverse output
of the previous layer (`XNB = NM(X + "_" + str(i*2+1))`). -/
def bwdChainName (name xName : String) : ℕ → String
  | 0 => xName
  | m + 1 => cudnnNM name (xName ++ "_" ++ toString (2 * m + 1))

/-- The forward-direction GRU node of layer `i`. -/
def fwdGRUEv (name xName : String) (numDirs : ℕ) (hiddenSize : ℤ) (i : ℕ) :
    GEvent :=
  GEvent.node "GRU"
    [fwdChainName name xName numDirs i,
     cudnnNM name ("W_" ++ toString (i * numDirs)),
     cudnnNM name ("R_" ++ toString (i * numDirs)),
     cudnnNM name ("B_" ++ toString (i * numDirs)), "",
     cudnnNM name ("H_" ++ toString (i * numDirs))]
    [cudnnNM name ("Y_" ++ toString (i * numDirs)),
     cudnnNM name ("YH_" ++ toString (i * numDirs))]
    [("direction", AttrV.str "forward"), ("hidden_size", AttrV.int hiddenSize)]

/-- The reverse-direction GRU node of layer `i`: its sequence input is the
backward chain value, not the layer's forward input. -/
def bwdGRUEv (name xName : String) (hiddenSize : ℤ) (i : ℕ) : GEvent :=
  GEvent.node "GRU"
    [bwdChainName name xName i,
     cudnnNM name ("W_" ++ toString (2 * i + 1)),
     cudnnNM name ("R_" ++ toString (2 * i + 1)),
     cudnnNM name ("B_" ++ toString (2 * i + 1)), "",
     cudnnNM name ("H_" ++ toString (2 * i + 1))]
    [cudnnNM name ("Y_" ++ toString (2 * i + 1)),
     cudnnNM name ("YH_" ++ toString (2 * i + 1))]
    [("direction", AttrV.str "reverse"), ("hidden_size", AttrV.int hiddenSize)]

/-- The nodes layer `i` of the loop creates: forward GRU and Squeeze, plus,
when bidirectional, reverse GRU and Squeeze. -/
def layerEvs (name xName : String) (numDirs : ℕ) (hiddenSize : ℤ) (i : ℕ) :
    List GEvent :=
  [fwdGRUEv name xName numDirs hiddenSize i,
   GEvent.node "Squeeze" [cudnnNM name ("Y_" ++ toString (i * numDirs))]
     [cudnnNM name (xName ++ "_" ++ toString (i * numDirs))]
     [("axes", AttrV.ints [1])]]
  ++ (if numDirs = 2 then
      [bwdGRUEv name xName hiddenSize i,
       GEvent.node "Squeeze" [cudnnNM name ("Y_" ++ toString (2 * i + 1))]
         [cudnnNM name (xName ++ "_" ++ toString (2 * i + 1))]
         [("axes", AttrV.ints [1])]]
      else [])

/-- The `for i in range(num_layers)` loop, as a recursion on the number of
layers already processed: returns the current forward chain value `XNF`,
the current backward chain value `XNB`, and the events emitted so far. -/
def gruChain (name xName : String) (numDirs : ℕ) (hiddenSize : ℤ) :
    ℕ → String × String × List GEvent
  | 0 => (xName, xName, [])
  | m + 1 =>
    let p := gruChain name xName numDirs hiddenSize m
    let fwd :=
      [GEvent.node "GRU"
        [p.1, cudnnNM name ("W_" ++ toString (m * numDirs)),
         cudnnNM name ("R_" ++ toString (m * numDirs)),
         cudnnNM name ("B_" ++ toString (m * numDirs)), "",
         cudnnNM name ("H_" ++ toString (m * numDirs))]
        [cudnnNM name ("Y_" ++ toString (m * numDirs)),
         cudnnNM name ("YH_" ++ toString (m * numDirs))]
        [("direction", AttrV.str "forward"),
         ("hidden_size", AttrV.int hiddenSize)],
       GEvent.node "Squeeze" [cudnnNM name ("Y_" ++ toString (m * numDirs))]
         [cudnnNM name (xName ++ "_" ++ toString (m * numDirs))]
         [("axes", AttrV.ints [1])]]
    let xnf := cudnnNM name (xName ++ "_" ++ toString (m * numDirs))
    if numDirs = 2 then
      let bwd :=
        [GEvent.node "GRU"
          [p.2.1, cudnnNM name ("W_" ++ toString (2 * m + 1)),
           cudnnNM name ("R_" ++ toString (2 * m + 1)),
           cudnnNM name ("B_" ++ toString (2 * m + 1)), "",
           cudnnNM name ("H_" ++ toString (2 * m + 1))]
          [cudnnNM name ("Y_" ++ toString (2 * m + 1)),
           cudnnNM name ("YH_" ++ toString (2 * m + 1))]
          [("direction", AttrV.str "reverse"),
           ("hidden_size", AttrV.int hiddenSize)],
         GEvent.node "Squeeze" [cudnnNM name ("Y_" ++ toString (2 * m + 1))]
           [cudnnNM name (xName ++ "_" ++ toString (2 * m + 1))]
           [("axes", AttrV.ints [1])]]
      (xnf, cudnnNM name (xName ++ "_" ++ toString (2 * m + 1)),
       p.2.2 ++ fwd ++ bwd)
    else
      (xnf, p.2.1, p.2.2 ++ fwd)

/-- `num_dirs = 1 if direction == "unidirectional" else 2`. -/
def cudnnNumDirs (a : CudnnArgs) : ℕ :=
  if a.direction = "unidirectional" then 1 else 2

/-- `num_layers = int(H_shape[0] / num_dirs)`: truncated integer division
of the initial-hidden-state tensor's leading dimension. -/
def cudnnNumLayers (a : CudnnArgs) : ℕ :=
  ((a.hShape.getD 0 0).tdiv (cudnnNumDirs a)).toNat

/-- `hidden_size = H_shape[2]`. -/
def cudnnHidden (a : CudnnArgs) : ℤ := a.hShape.getD 2 0

/-- `input_size = X_shape[2]`. -/
def cudnnInputSize (a : CudnnArgs) : ℤ := a.xShape.getD 2 0

/-- `num_layers * num_dirs`, the leading dimension of the per-layer
parameter tensors. -/
def cudnnTotal (a : CudnnArgs) : ℕ := cudnnNumLayers a * cudnnNumDirs a

/-- `w_shape = [num_layers*num_dirs, 3*hidden_size, input_size]`. -/
def cudnnWShape (a : CudnnArgs) : List ℤ :=
  [(cudnnTotal a : ℤ), 3 * cudnnHidden a, cudnnInputSize a]

/-- `r_shape = [num_layers*num_dirs, 3*hidden_size, hidden_size]`. -/
def cudnnRShape (a : CudnnArgs) : List ℤ :=
  [(cudnnTotal a : ℤ), 3 * cudnnHidden a, cudnnHidden a]

/-- `b_shape = [num_layers*num_dirs, 6*hidden_size]`. -/
def cudnnBShape (a : CudnnArgs) : List ℤ :=
  [(cudnnTotal a : ℤ), 6 * cudnnHidden a]

/-- The final-hidden-state output names `YH_0 .. YH_(L*D-1)`, in
layer-then-direction order. -/
def cudnnYHS (a : CudnnArgs) : List String :=
  (List.range (cudnnTotal a)).map fun i => cudnnNM a.name ("YH_" ++ toString i)

/-- The constants and parameter-unpacking nodes created before the layer
loop: seven int64 constants (shapes, zero and the three cumulative segment
boundaries), three Slice nodes cutting the packed blob, three Reshape
nodes, and four Split nodes (parameters and initial hidden states). -/
def cudnnHeadEvs (a : CudnnArgs) : List GEvent :=
  [GEvent.const "w_shape" (ConstData.ivec (cudnnWShape a)),
   GEvent.const "r_shape" (ConstData.ivec (cudnnRShape a)),
   GEvent.const "b_shape" (ConstData.ivec (cudnnBShape a)),
   GEvent.const "zero" (ConstData.ivec [0]),
   GEvent.const "w_end" (ConstData.ivec [(cudnnWShape a).prod]),
   GEvent.const "r_end" (ConstData.ivec [(cudnnWShape a).prod + (cudnnRShape a).prod]),
   GEvent.const "b_end" (ConstData.ivec
     [(cudnnWShape a).prod + (cudnnRShape a).prod + (cudnnBShape a).prod]),
   GEvent.node "Slice" [a.pName, "zero", "w_end"] ["W_flattened"] [],
   GEvent.node "Slice" [a.pName, "w_end", "r_end"] ["R_flattened"] [],
   GEvent.node "Slice" [a.pName, "r_end", "b_end"] ["B_flattened"] [],
   GEvent.node "Reshape" ["W_flattened", "w_shape"] ["W"] [],
   GEvent.node "Reshape" ["R_flattened", "r_shape"] ["R"] [],
   GEvent.node "Reshape" ["B_flattened", "b_shape"] ["B"] [],
   GEvent.node "Split" ["W"]
     ((List.range (cudnnTotal a)).map fun i => cudnnNM a.name ("W_" ++ toString i)) [],
   GEvent.node "Split" ["R"]
     ((List.range (cudnnTotal a)).map fun i => cudnnNM a.name ("R_" ++ toString i)) [],
   GEvent.node "Split" ["B"]
     ((List.range (cudnnTotal a)).map fun i => cudnnNM a.name ("B_" ++ toString i)) [],
   GEvent.node "Split" [a.hName]
     ((List.range (cudnnTotal a)).map fun i => cudnnNM a.name ("H_" ++ toString i)) []]

/-- The events after the layer loop: the fused node's removal, then the node
bound to its first output (feature-axis Concat of the forward and backward
chains when bidirectional, Identity of the forward chain otherwise), then
the Concat of all final hidden states bound to its second output. -/
def cudnnTailEvs (a : CudnnArgs) (xnf xnb : String) : List GEvent :=
  GEvent.remove a.name ::
  (if cudnnNumDirs a = 2 then
    [GEvent.node "Concat" [xnf, xnb] [a.out0] [("axis", AttrV.int (-1))]]
   else
    [GEvent.node "Identity" [xnf] [a.out0] []])
  ++ [GEvent.node "Concat" (cudnnYHS a) [a.out1] [("axis", AttrV.int 0)]]

/-- The full event trace of a successful `CudnnRNN.version_11` run. -/
def cudnnTraceOf (a : CudnnArgs) : List GEvent :=
  let chain := gruChain a.name a.xName (cudnnNumDirs a) (cudnnHidden a)
      (cudnnNumLayers a)
  cudnnHeadEvs a ++ chain.2.2 ++ cudnnTailEvs a chain.1 chain.2.1

/-- Embedding of `CudnnRNN.version_11`: the three `utils.make_sure`
attribute checks, raised before anything is created, then the full
synthesis trace. -/
def cudnnRNN (a : CudnnArgs) : List GEvent × Except LowerErr Unit :=
  if a.rnn_mode ≠ "gru" then
    ([], .error (.unsupported "rnn mode other than gru are not supported yet"))
  else if a.dropout ≠ 0 then
    ([], .error (.unsupported "dropout not supported yet"))
  else if a.input_mode ≠ "linear_input" then
    ([], .error (.unsupported "input mode must be linear input"))
  else
    (cudnnTraceOf a, .ok ())

/-! ### The output-rewiring utility (spec section 4.3)

`ctx.replace_all_inputs`, `ctx.copy_dtype` and `ctx.copy_shape` are Graph
Context operations whose implementation lives outside the lowering module;
only their caller (the local `replace_output` helper) is in the source.
They are therefore modelled from the specification. -/

/-- A graph node as seen by the rewiring utility. -/
@[ext]
structure RNode where
  name : String
  op : String
  inputs : List String
  outputs : List String
  deriving DecidableEq

/-- The slice of Graph Context state the rewiring step touches: the node
list and the recorded element type and shape of every value reference. -/
@[ext]
structure RGraph where
  nodes : List RNode
  dtypes : String → Option Dtype
  shapes : String → Option (List ℤ)

/-- The substitution applied to each input reference: the old reference
becomes the new one, everything else is untouched. -/
def substRef (old new r : String) : String := if r = old then new else r

/-- One node after rewiring: the same node with each input reference
substituted, order preserved. -/
def substNode (old new : String) (nd : RNode) : RNode :=
  { nd with inputs := nd.inputs.map (substRef old new) }

/-- Modelled from the spec: `ctx.replace_all_inputs(nodes, old, new)` (a
Graph Context operation, not under src/) finds every node whose input list
contains the old reference and replaces that occurrence with the new
reference, in place, preserving input order. -/
def replaceAllInputs (g : RGraph) (old new : String) : RGraph :=
  { g with nodes := g.nodes.map (substNode old new) }

/-- Modelled from the spec: `ctx.copy_dtype(old, new)` (a Graph Context
operation, not under src/) copies the old reference's previously recorded
element type onto the new reference. -/
def copyDtype (g : RGraph) (old new : String) : RGraph :=
  { g with dtypes := fun r => if r = new then g.dtypes old else g.dtypes r }

/-- Modelled from the spec: `ctx.copy_shape(old, new)` (a Graph Context
operation, not under src/) copies the old reference's previously recorded
shape onto the new reference. -/
def copyShape (g : RGraph) (old new : String) : RGraph :=
  { g with shapes := fun r => if r = new then g.shapes old else g.shapes r }

/-- The body of the routine's local `replace_output(old, new)` helper:
rewire all consumers, then copy dtype and shape. -/
def replaceOutputStep (g : RGraph) (old new : String) : RGraph :=
  copyShape (copyDtype (replaceAllInputs g old new) old new) old new

/-! ### Trace-inspection helpers -/

/-- The old output reference of a rewiring event, if the event is one. -/
def replacedOld : GEvent → Option String
  | .replaceOut old => some old
  | _ => none

/-- Whether an event creates a GRU node. -/
def isGRUEv : GEvent → Bool
  | .node op _ _ _ => op == "GRU"
  | _ => false

/-- Whether an event removes a node. -/
def isRemoveEv : GEvent → Bool
  | .remove _ => true
  | _ => false

/-- Whether an event creates a node producing the given output reference. -/
def producesOut (ref : String) : GEvent → Bool
  | .node _ _ outs _ => outs.contains ref
  | _ => false

/-- The subsequence of GRU-creation events of a trace. -/
def gruEvsOf (tr : List GEvent) : List GEvent := tr.filter isGRUEv

/-- Whether the second character list occurs as a contiguous substring of
the first. -/
def hasSubList : List Char → List Char → Bool
  | [], nee => nee.isEmpty
  | c :: t, nee => nee.isPrefixOf (c :: t) || hasSubList t nee

/-- Whether `nee` occurs as a substring of `hay`. -/
def strHas (hay nee : String) : Bool := hasSubList hay.toList nee.toList

/-! ### Concrete instances used by witnesses and counterexamples -/

/-- A well-shaped LSTMBlockCell invocation: one input feature, hidden size
one, peepholes disabled, forget bias 1, clip bound 1, target opset 11,
identity activations. -/
def lstmGood : LSTMArgs 1 1 :=
  { name := "cell0", outs := fun k => "y" ++ toString (k : ℕ),
    x := fun _ => 1, cs_prev := fun _ => 1, h_prev := fun _ => 1,
    w := fun _ _ => 1, wci := fun _ => 1, wcf := fun _ => 1, wco := fun _ => 1,
    b := fun _ => 0, wShape := [2, 4], forget_bias := 1, cell_clip := 1,
    use_peephole := false, csDtype := Dtype.float32, opset := 11,
    sig := fun q => q, tanhF := fun q => q }

/-- An LSTMBlockCell invocation whose declared weight shape `[2, 6]` has a
trailing dimension not divisible by 4. -/
def lstmBadArgs : LSTMArgs 1 1 :=
  { lstmGood with wShape := [2, 6] }

/-- The same invocation with peepholes enabled and all three peephole
weight vectors zero. -/
def lstmZeroPeep {nI hS : ℕ} (a : LSTMArgs nI hS) : LSTMArgs nI hS :=
  { a with use_peephole := true,
           wci := fun _ => 0, wcf := fun _ => 0, wco := fun _ => 0 }

/-- The concrete instance with a float64 cell state element type. -/
def lstmGoodF64 : LSTMArgs 1 1 :=
  { lstmGood with csDtype := Dtype.float64 }

/-- A bidirectional CudnnRNN invocation with two layers
(`H_shape = [4, 5, 3]`, so `num_layers = 4 / 2 = 2`). -/
def cudnnBi2 : CudnnArgs :=
  { name := "n", xName := "x", hName := "h", pName := "p",
    out0 := "y0", out1 := "y1", xShape := [7, 5, 3], hShape := [4, 5, 3],
    rnn_mode := "gru", dropout := 0, input_mode := "linear_input",
    direction := "bidirectional" }

/-- A bidirectional CudnnRNN invocation whose initial-hidden-state leading
dimension 3 is not a multiple of the direction count 2. -/
def cudnnOdd : CudnnArgs :=
  { cudnnBi2 with hShape := [3, 5, 3] }

/-- A CudnnRNN invocation requesting the unsupported recurrence mode
"lstm". -/
def cudnnBadMode : CudnnArgs :=
  { cudnnBi2 with name := "cudnn_node", rnn_mode := "lstm" }

/-- A valid unidirectional single-layer CudnnRNN invocation. -/
def cudnnUni : CudnnArgs :=
  { cudnnBi2 with hShape := [1, 5, 3], direction := "unidirectional" }

/-- A CudnnRNN invocation requesting an unsupported non-zero dropout. -/
def cudnnBadDrop : CudnnArgs :=
  { cudnnBi2 with dropout := 1 / 2 }

/-- A CudnnRNN invocation requesting an unsupported input-wiring mode. -/
def cudnnBadInput : CudnnArgs :=
  { cudnnBi2 with input_mode := "skip_input" }

/-- A one-node graph used to witness the rewiring properties. -/
def rgraph0 : RGraph :=
  { nodes := [{ name := "consumer", op := "Mul",
                inputs := ["old0", "c"], outputs := ["z"] }],
    dtypes := fun r => if r = "old0" then some Dtype.float32 else none,
    shapes := fun r => if r = "old0" then some [1, 2] else none }

/-! ### Helper lemmas -/

lemma lstm_shape_cond_false {nI hS : ℕ} (a : LSTMArgs nI hS)
    (hw : a.wShape = [(nI : ℤ) + hS, 4 * hS]) :
    ¬(a.wShape.length ≠ 2 ∨ a.wShape.getD 1 0 % 4 ≠ 0) := by
  rw [hw]
  push_neg
  refine ⟨rfl, ?_⟩
  show (4 * (hS : ℤ)) % 4 = 0
  exact Int.mul_emod_right 4 hS

lemma lstm_run {nI hS : ℕ} (a : LSTMArgs nI hS)
    (hw : a.wShape = [(nI : ℤ) + hS, 4 * hS]) :
    lstmBlockCell a = (lstmTraceOf a, .ok (lstmOutOf a)) := by
  unfold lstmBlockCell
  rw [if_neg (lstm_shape_cond_false a hw)]

lemma wLastDim_eq {nI hS : ℕ} : wLastDim [(nI : ℤ) + hS, 4 * hS] = hS := by
  unfold wLastDim
  show (((4 : ℤ) * hS).tdiv 4).toNat = hS
  rw [Int.mul_tdiv_cancel_left _ (by norm_num)]
  exact Int.toNat_natCast hS

lemma lstm_replace_olds {nI hS : ℕ} (a : LSTMArgs nI hS) :
    (lstmTraceOf a).filterMap replacedOld =
      [a.outs 0, a.outs 1, a.outs 2, a.outs 3, a.outs 4, a.outs 5, a.outs 6] := by
  unfold lstmTraceOf lstmPeepEvs lstmClipEvs makeSigmoidEvs
  split_ifs <;> rfl

lemma min_max_clamp_comm (lo hi x : ℚ) (h : lo ≤ hi) :
    min (max x lo) hi = max lo (min x hi) := by
  rcases le_total x lo with hx | hx
  · rw [max_eq_right hx, min_eq_left h, min_eq_left (hx.trans h), max_eq_left hx]
  · rw [max_eq_left hx, max_eq_right (le_min hx h)]

lemma lstm_cs_eq_spec {nI hS : ℕ} (a : LSTMArgs nI hS) :
    lstmCs a = (specGatedCell a).cell_state := by
  show lstmCs a =
    (if 0 < a.cell_clip then
      (fun j => clampTo (-a.cell_clip) a.cell_clip (lstmCsRaw a j))
     else lstmCsRaw a)
  unfold lstmCs clipV6 clipV11 clampTo
  by_cases hc : 0 < a.cell_clip
  · rw [if_pos hc, if_pos hc]
    have hcc : -a.cell_clip ≤ a.cell_clip := by linarith
    by_cases ho : a.opset < 11
    · rw [if_pos ho]; funext j; exact min_max_clamp_comm _ _ _ hcc
    · rw [if_neg ho]; funext j; exact min_max_clamp_comm _ _ _ hcc
  · rw [if_neg hc, if_neg hc]

lemma lstmCs_opset_irrel {nI hS : ℕ} (a : LSTMArgs nI hS) (v1 v2 : ℕ) :
    lstmCs { a with opset := v1 } = lstmCs { a with opset := v2 } := by
  unfold lstmCs clipV6 clipV11
  split_ifs <;> rfl

lemma lstmOutOf_opset_irrel {nI hS : ℕ} (a : LSTMArgs nI hS) (v1 v2 : ℕ) :
    lstmOutOf { a with opset := v1 } = lstmOutOf { a with opset := v2 } := by
  unfold lstmOutOf lstmH lstmO lstmCo
  rw [lstmCs_opset_irrel a v1 v2]
  rfl

/-! ### Claim theorems: the gated-cell lowering -/

/-- C1: for every valid gated-cell invocation (8 inputs, weight trailing
dimension divisible by 4) the lowering succeeds; its seven rewiring calls
target the fused node's outputs 0..6 in that order; and the seven
replacement values (fields i, cs, f, o, ci, co, h, bound to output slots
0..6 respectively) equal the section-4.1 closed-form values in_gate,
cell_state, forget, out_gate, cell_input, cell_tanh, hidden evaluated on
the same input tensors. -/
theorem lstm_lowering_matches_spec_equations {nI hS : ℕ} (a : LSTMArgs nI hS)
    (hw : a.wShape = [(nI : ℤ) + hS, 4 * hS]) :
    (lstmBlockCell a).2 = .ok (lstmOutOf a) ∧
    (lstmBlockCell a).1.filterMap replacedOld =
      [a.outs 0, a.outs 1, a.outs 2, a.outs 3, a.outs 4, a.outs 5, a.outs 6] ∧
    (lstmOutOf a).i = (specGatedCell a).in_gate ∧
    (lstmOutOf a).cs = (specGatedCell a).cell_state ∧
    (lstmOutOf a).f = (specGatedCell a).forget ∧
    (lstmOutOf a).o = (specGatedCell a).out_gate ∧
    (lstmOutOf a).ci = (specGatedCell a).cell_input ∧
    (lstmOutOf a).co = (specGatedCell a).cell_tanh ∧
    (lstmOutOf a).h = (specGatedCell a).hidden := by
  have hrun := lstm_run a hw
  have hcs := lstm_cs_eq_spec a
  refine ⟨by rw [hrun], by rw [hrun]; exact lstm_replace_olds a,
    rfl, hcs, rfl, ?_, rfl, ?_, ?_⟩
  · show (fun j => a.sig (lstmCs a j * lstmWco a j + lstmPre a 3 j)) = _
    rw [hcs]; rfl
  · show (fun j => a.tanhF (lstmCs a j)) = _
    rw [hcs]; rfl
  · show (fun j => a.tanhF (lstmCs a j) *
      a.sig (lstmCs a j * lstmWco a j + lstmPre a 3 j)) = _
    rw [hcs]; rfl

/-- Witness for C1 at the concrete all-ones instance, with the hidden
output evaluated on both sides. -/
theorem lstm_lowering_matches_spec_equations_witness :
    lstmGood.wShape = [(1 : ℤ) + 1, 4 * 1] ∧
    (lstmBlockCell lstmGood).2 = .ok (lstmOutOf lstmGood) ∧
    (lstmOutOf lstmGood).h 0 = 2 ∧ (specGatedCell lstmGood).hidden 0 = 2 := by
  have h := lstm_lowering_matches_spec_equations lstmGood (by decide)
  have hv : (lstmOutOf lstmGood).h 0 = 2 := by
    norm_num [lstmOutOf, lstmH, lstmCo, lstmO, lstmCs, lstmCsRaw, lstmCi, lstmI,
      lstmF, lstmWci, lstmWcf, lstmWco, lstmPre, lstmFPre, lstmGates, lstmGood,
      concatVec, gateIdx, clipV11, Fin.sum_univ_two, min_def, max_def]
  refine ⟨by decide, h.1, hv, ?_⟩
  rw [← h.2.2.2.2.2.2.2.2]
  exact hv

/-- C3: a clamp bound at most 0 leaves the produced cell state equal to the
unclamped value; a positive clamp bound keeps every element of the cell
state within the symmetric bounds; and the lowering's outcome is the same
at every target opset, i.e. the attribute-form clip (below opset 11) and
the constant-input-form clip (at or above 11) are numerically identical
for the same bound and inputs. -/
theorem lstm_clip_semantics {nI hS : ℕ} (a : LSTMArgs nI hS)
    (hw : a.wShape = [(nI : ℤ) + hS, 4 * hS]) :
    (a.cell_clip ≤ 0 → (lstmBlockCell a).2 = .ok (lstmOutOf a) ∧
        (lstmOutOf a).cs = lstmCsRaw a) ∧
    (0 < a.cell_clip → ∀ j, -a.cell_clip ≤ (lstmOutOf a).cs j ∧
        (lstmOutOf a).cs j ≤ a.cell_clip) ∧
    (∀ v1 v2 : ℕ, (lstmBlockCell { a with opset := v1 }).2 =
        (lstmBlockCell { a with opset := v2 }).2) := by
  refine ⟨?_, ?_, ?_⟩
  · intro hle
    refine ⟨by rw [lstm_run a hw], ?_⟩
    show lstmCs a = lstmCsRaw a
    unfold lstmCs
    rw [if_neg (not_lt.mpr hle)]
  · intro hc j
    show -a.cell_clip ≤ lstmCs a j ∧ lstmCs a j ≤ a.cell_clip
    have hcc : -a.cell_clip ≤ a.cell_clip := by linarith
    unfold lstmCs clipV6 clipV11
    rw [if_pos hc]
    by_cases ho : a.opset < 11
    · rw [if_pos ho]
      exact ⟨le_min (le_max_right _ _) hcc, min_le_right _ _⟩
    · rw [if_neg ho]
      exact ⟨le_min (le_max_right _ _) hcc, min_le_right _ _⟩
  · intro v1 v2
    rw [lstm_run { a with opset := v1 } hw, lstm_run { a with opset := v2 } hw]
    rw [lstmOutOf_opset_irrel a v1 v2]

/-- Witness for C3 at the concrete instance (clip bound 1): both bounds
hold on the clipped cell state, and the opset-10 and opset-11 lowerings of
the same invocation agree. -/
theorem lstm_clip_semantics_witness :
    (0 : ℚ) < lstmGood.cell_clip ∧
    -lstmGood.cell_clip ≤ (lstmOutOf lstmGood).cs 0 ∧
    (lstmOutOf lstmGood).cs 0 ≤ lstmGood.cell_clip ∧
    (lstmBlockCell { lstmGood with opset := 10 }).2 =
      (lstmBlockCell { lstmGood with opset := 11 }).2 := by
  have h := lstm_clip_semantics lstmGood (by decide)
  have hc : (0 : ℚ) < lstmGood.cell_clip := by norm_num [lstmGood]
  exact ⟨hc, (h.2.1 hc 0).1, (h.2.1 hc 0).2, h.2.2 10 11⟩

lemma wLastDim_of_hw {nI hS : ℕ} (a : LSTMArgs nI hS)
    (hw : a.wShape = [(nI : ℤ) + hS, 4 * hS]) : wLastDim a.wShape = hS := by
  rw [hw]; exact wLastDim_eq

lemma lstm_const_events {nI hS : ℕ} (a : LSTMArgs nI hS) (n : String)
    (d : ConstData) (hmem : GEvent.const n d ∈ lstmTraceOf a) :
    (n = a.name ++ "__forget_bias" ∧
      d = ConstData.scalar a.forget_bias Dtype.float32) ∨
    (a.use_peephole = false ∧ n = a.name ++ "__zeros_const" ∧
      d = ConstData.vec (List.replicate (wLastDim a.wShape) 0) Dtype.float32) ∨
    (0 < a.cell_clip ∧ ¬(a.opset < 11) ∧
      ((n = a.name ++ "_min" ∧ d = ConstData.scalar (-a.cell_clip) a.csDtype) ∨
       (n = a.name ++ "_max" ∧ d = ConstData.scalar a.cell_clip a.csDtype))) := by
  unfold lstmTraceOf lstmPeepEvs lstmClipEvs makeSigmoidEvs at hmem
  split_ifs at hmem <;> simp at hmem <;>
    (try simp_all only [Bool.not_eq_true]) <;> tauto

/-- C4: with the peephole flag disabled, the lowering creates a zero-filled
float32 vector constant of exactly the hidden width (the weight trailing
dimension divided by 4) — every constant of that name is this vector, never
a scalar — and the produced outcome is exactly the one produced by the
peephole-enabled path given three all-zero peephole weight vectors on the
same inputs. -/
theorem lstm_peephole_disabled_equiv_zero_weights {nI hS : ℕ}
    (a : LSTMArgs nI hS) (hw : a.wShape = [(nI : ℤ) + hS, 4 * hS])
    (hp : a.use_peephole = false) :
    GEvent.const (a.name ++ "__zeros_const")
      (ConstData.vec (List.replicate hS 0) Dtype.float32) ∈ (lstmBlockCell a).1 ∧
    (∀ d, GEvent.const (a.name ++ "__zeros_const") d ∈ (lstmBlockCell a).1 →
      d = ConstData.vec (List.replicate hS 0) Dtype.float32) ∧
    (lstmBlockCell a).2 = (lstmBlockCell (lstmZeroPeep a)).2 := by
  have hrun := lstm_run a hw
  have hwl := wLastDim_of_hw a hw
  refine ⟨?_, ?_, ?_⟩
  · have hm : GEvent.const (a.name ++ "__zeros_const")
        (ConstData.vec (List.replicate (wLastDim a.wShape) 0) Dtype.float32) ∈
        lstmTraceOf a := by
      unfold lstmTraceOf lstmPeepEvs
      rw [hp]
      simp
    rw [hwl] at hm
    rw [hrun]
    exact hm
  · intro d hd
    rw [hrun] at hd
    rcases lstm_const_events a _ d hd with ⟨hn, _⟩ | ⟨_, _, hd2⟩ | ⟨_, _, hmm⟩
    · exfalso
      have hdat := congrArg String.data hn
      simp [String.data_append] at hdat
    · rw [hd2, hwl]
    · rcases hmm with ⟨hn, _⟩ | ⟨hn, _⟩ <;>
      · exfalso
        have hdat := congrArg String.data hn
        simp [String.data_append] at hdat
  · have hw2 : (lstmZeroPeep a).wShape = [(nI : ℤ) + hS, 4 * hS] := hw
    rw [hrun, lstm_run (lstmZeroPeep a) hw2]
    show Except.ok (lstmOutOf a) = Except.ok (lstmOutOf (lstmZeroPeep a))
    have hout : lstmOutOf a = lstmOutOf (lstmZeroPeep a) := by
      unfold lstmOutOf lstmH lstmO lstmCo lstmCs lstmCsRaw lstmI lstmF lstmCi
        lstmWci lstmWcf lstmWco lstmZeroPeep
      rw [hp]
      rfl
    rw [hout]

/-- Witness for C4 at the concrete peephole-disabled instance. -/
theorem lstm_peephole_disabled_equiv_zero_weights_witness :
    lstmGood.use_peephole = false ∧
    GEvent.const "cell0__zeros_const"
      (ConstData.vec (List.replicate 1 0) Dtype.float32) ∈ (lstmBlockCell lstmGood).1 ∧
    (lstmBlockCell lstmGood).2 = (lstmBlockCell (lstmZeroPeep lstmGood)).2 := by
  have h := lstm_peephole_disabled_equiv_zero_weights lstmGood (by decide) (by decide)
  exact ⟨by decide, h.1, h.2.2⟩

/-- C5 counterexample: with declared weight shape [2, 6] the routine does
fail with the shape-mismatch error naming the fused node, but the graph is
left with the two already-created primitive nodes (Concat and MatMul), not
with zero new nodes as claimed. -/
theorem lstm_shape_error_cex :
    (lstmBlockCell lstmBadArgs).2 = .error (.shapeMismatch
      "shape of W of LSTMBlockCell cell0 should be times of 4") ∧
    (lstmBlockCell lstmBadArgs).1 =
      [GEvent.node "Concat" [] [] [("axis", AttrV.int 1)],
       GEvent.node "MatMul" [] [] []] ∧
    (lstmBlockCell lstmBadArgs).1.length = 2 := by
  refine ⟨by rfl, by rfl, by rfl⟩

/-- C5 amended: a weight tensor whose declared shape is not 2-dimensional
with trailing dimension divisible by 4 makes the lowering fail with a
shape-mismatch error naming the fused node; the failure happens before any
constant and before any primitive node past the Concat and MatMul nodes is
created, so the graph is left with exactly those two new nodes. -/
theorem lstm_shape_error_amended {nI hS : ℕ} (a : LSTMArgs nI hS)
    (hbad : a.wShape.length ≠ 2 ∨ a.wShape.getD 1 0 % 4 ≠ 0) :
    (lstmBlockCell a).2 = .error (.shapeMismatch
      ("shape of W of LSTMBlockCell " ++ a.name ++ " should be times of 4")) ∧
    (lstmBlockCell a).1 =
      [GEvent.node "Concat" [] [] [("axis", AttrV.int 1)],
       GEvent.node "MatMul" [] [] []] ∧
    ∀ n d, GEvent.const n d ∉ (lstmBlockCell a).1 := by
  unfold lstmBlockCell
  rw [if_pos hbad]
  refine ⟨rfl, rfl, ?_⟩
  intro n d hc
  simp at hc

/-- Witness for the amended C5 at the concrete [2, 6] instance. -/
theorem lstm_shape_error_amended_witness :
    (lstmBadArgs.wShape.length ≠ 2 ∨ lstmBadArgs.wShape.getD 1 0 % 4 ≠ 0) ∧
    (lstmBlockCell lstmBadArgs).1 =
      [GEvent.node "Concat" [] [] [("axis", AttrV.int 1)],
       GEvent.node "MatMul" [] [] []] :=
  ⟨by decide, (lstm_shape_error_amended lstmBadArgs (by decide)).2.1⟩

/-- C10: the forget-bias constant and (when peepholes are disabled) the
zero-vector constant are created with element type float32 whatever the
cell state's reported element type is; every other constant the routine can
create is one of the two clamp-bound constants, which carry the cell
state's element type and exist only on the constant-input clip path
(positive bound, opset at least 11). -/
theorem lstm_const_dtypes {nI hS : ℕ} (a : LSTMArgs nI hS)
    (hw : a.wShape = [(nI : ℤ) + hS, 4 * hS]) :
    GEvent.const (a.name ++ "__forget_bias")
      (ConstData.scalar a.forget_bias Dtype.float32) ∈ (lstmBlockCell a).1 ∧
    (a.use_peephole = false →
      GEvent.const (a.name ++ "__zeros_const")
        (ConstData.vec (List.replicate hS 0) Dtype.float32) ∈ (lstmBlockCell a).1) ∧
    (∀ n d, GEvent.const n d ∈ (lstmBlockCell a).1 →
      d.dtypeOf = some Dtype.float32 ∨
      (0 < a.cell_clip ∧ 11 ≤ a.opset ∧
        (n = a.name ++ "_min" ∨ n = a.name ++ "_max") ∧
        d.dtypeOf = some a.csDtype)) := by
  have hrun := lstm_run a hw
  have hwl := wLastDim_of_hw a hw
  refine ⟨?_, ?_, ?_⟩
  · rw [hrun]
    unfold lstmTraceOf
    simp
  · intro hp
    have hm : GEvent.const (a.name ++ "__zeros_const")
        (ConstData.vec (List.replicate (wLastDim a.wShape) 0) Dtype.float32) ∈
        lstmTraceOf a := by
      unfold lstmTraceOf lstmPeepEvs
      rw [hp]
      simp
    rw [hwl] at hm
    rw [hrun]
    exact hm
  · intro n d hd
    rw [hrun] at hd
    rcases lstm_const_events a n d hd with ⟨_, hd2⟩ | ⟨_, _, hd2⟩ |
      ⟨hc, ho, ⟨hn, hd2⟩ | ⟨hn, hd2⟩⟩
    · left; rw [hd2]; rfl
    · left; rw [hd2]; rfl
    · right; exact ⟨hc, Nat.le_of_not_lt ho, Or.inl hn, by rw [hd2]; rfl⟩
    · right; exact ⟨hc, Nat.le_of_not_lt ho, Or.inr hn, by rw [hd2]; rfl⟩

/-- Witness for C10 at a concrete instance whose cell state element type is
float64: the synthesized forget-bias and zeros constants are still
float32. -/
theorem lstm_const_dtypes_witness :
    lstmGoodF64.csDtype ≠ Dtype.float32 ∧
    GEvent.const "cell0__forget_bias" (ConstData.scalar 1 Dtype.float32) ∈
      (lstmBlockCell lstmGoodF64).1 ∧
    GEvent.const "cell0__zeros_const"
      (ConstData.vec (List.replicate 1 0) Dtype.float32) ∈
      (lstmBlockCell lstmGoodF64).1 := by
  have h := lstm_const_dtypes lstmGoodF64 (by decide)
  exact ⟨by decide, h.1, h.2.1 (by decide)⟩

/-! ### Helper lemmas: the multi-layer lowering -/

lemma gruChain_fst (n x : String) (D : ℕ) (h : ℤ) (m : ℕ) :
    (gruChain n x D h m).1 = fwdChainName n x D m := by
  cases m with
  | zero => rfl
  | succ k =>
    unfold gruChain
    by_cases hD : D = 2 <;> simp [hD, fwdChainName]

lemma gruChain_snd_uni (n x : String) (h : ℤ) (m : ℕ) :
    (gruChain n x 1 h m).2.1 = x := by
  induction m with
  | zero => rfl
  | succ k ih =>
    unfold gruChain
    simp only [if_neg (by norm_num : ¬(1 = 2))]
    exact ih

lemma gruChain_snd_bi (n x : String) (h : ℤ) (m : ℕ) :
    (gruChain n x 2 h m).2.1 = bwdChainName n x m := by
  cases m with
  | zero => rfl
  | succ k =>
    unfold gruChain
    simp [bwdChainName]

lemma gruChain_evs (n x : String) (D : ℕ) (h : ℤ) (m : ℕ) :
    (gruChain n x D h m).2.2 =
      ((List.range m).map (layerEvs n x D h)).flatten := by
  induction m with
  | zero => rfl
  | succ k ih =>
    rw [List.range_succ, List.map_append, List.flatten_append]
    unfold gruChain
    by_cases hD : D = 2
    · subst hD
      simp only [if_pos rfl]
      rw [ih, gruChain_fst, gruChain_snd_bi]
      simp [layerEvs, fwdGRUEv, bwdGRUEv]
    · simp only [if_neg hD]
      rw [ih, gruChain_fst]
      simp [layerEvs, fwdGRUEv, hD]

lemma cudnn_run (a : CudnnArgs) (h1 : a.rnn_mode = "gru") (h2 : a.dropout = 0)
    (h3 : a.input_mode = "linear_input") :
    cudnnRNN a = (cudnnTraceOf a, .ok ()) := by
  unfold cudnnRNN
  rw [if_neg (by simp [h1]), if_neg (by simp [h2]), if_neg (by simp [h3])]

lemma countP_layerEvs_gru (n x : String) (D : ℕ) (h : ℤ) (i : ℕ) :
    (layerEvs n x D h i).countP isGRUEv = if D = 2 then 2 else 1 := by
  by_cases hD : D = 2 <;>
    simp [layerEvs, hD, fwdGRUEv, bwdGRUEv, isGRUEv, List.countP_cons]

lemma countP_chain_gru (n x : String) (D : ℕ) (h : ℤ) (m : ℕ) :
    (((List.range m).map (layerEvs n x D h)).flatten).countP isGRUEv =
      m * (if D = 2 then 2 else 1) := by
  induction m with
  | zero => simp
  | succ k ih =>
    rw [List.range_succ, List.map_append, List.flatten_append, List.countP_append,
      ih]
    simp only [Nat.succ_mul]
    split_ifs with hD <;> simp [countP_layerEvs_gru, hD]

lemma countP_head_gru (a : CudnnArgs) : (cudnnHeadEvs a).countP isGRUEv = 0 := by
  simp [cudnnHeadEvs, isGRUEv, List.countP_cons]

lemma countP_tail_gru (a : CudnnArgs) (xnf xnb : String) :
    (cudnnTailEvs a xnf xnb).countP isGRUEv = 0 := by
  unfold cudnnTailEvs
  split_ifs <;> simp [isGRUEv, List.countP_cons]

lemma countP_layerEvs_remove (n x : String) (D : ℕ) (h : ℤ) (i : ℕ) :
    (layerEvs n x D h i).countP isRemoveEv = 0 := by
  by_cases hD : D = 2 <;>
    simp [layerEvs, hD, fwdGRUEv, bwdGRUEv, isRemoveEv, List.countP_cons]

lemma countP_chain_remove (n x : String) (D : ℕ) (h : ℤ) (m : ℕ) :
    (((List.range m).map (layerEvs n x D h)).flatten).countP isRemoveEv = 0 := by
  induction m with
  | zero => simp
  | succ k ih =>
    rw [List.range_succ, List.map_append, List.flatten_append, List.countP_append,
      ih]
    simp [countP_layerEvs_remove]

lemma countP_head_remove (a : CudnnArgs) :
    (cudnnHeadEvs a).countP isRemoveEv = 0 := by
  simp [cudnnHeadEvs, isRemoveEv, List.countP_cons]

lemma countP_tail_remove (a : CudnnArgs) (xnf xnb : String) :
    (cudnnTailEvs a xnf xnb).countP isRemoveEv = 1 := by
  unfold cudnnTailEvs
  split_ifs <;> simp [isRemoveEv, List.countP_cons]

lemma lstm_trace_no_remove {nI hS : ℕ} (a : LSTMArgs nI hS) :
    (lstmTraceOf a).countP isRemoveEv = 0 := by
  unfold lstmTraceOf lstmPeepEvs lstmClipEvs makeSigmoidEvs
  split_ifs <;> rfl

lemma fwd_mem_layerEvs (n x : String) (D : ℕ) (h : ℤ) (i : ℕ) :
    fwdGRUEv n x D h i ∈ layerEvs n x D h i := by
  simp [layerEvs]

lemma bwd_mem_layerEvs (n x : String) (h : ℤ) (i : ℕ) :
    bwdGRUEv n x h i ∈ layerEvs n x 2 h i := by
  simp [layerEvs]

lemma substRef_idem (old new r : String) :
    substRef old new (substRef old new r) = substRef old new r := by
  unfold substRef
  split_ifs <;> rfl

lemma substNode_idem (old new : String) (nd : RNode) :
    substNode old new (substNode old new nd) = substNode old new nd := by
  unfold substNode
  refine RNode.ext rfl rfl ?_ rfl
  rw [List.map_map]
  apply List.map_congr_left
  intro r _
  exact substRef_idem old new r

lemma mem_chain_evs (n x : String) (D : ℕ) (h : ℤ) {m i : ℕ} (hi : i < m)
    {ev : GEvent} (hev : ev ∈ layerEvs n x D h i) :
    ev ∈ ((List.range m).map (layerEvs n x D h)).flatten := by
  rw [List.mem_flatten]
  exact ⟨layerEvs n x D h i,
    List.mem_map_of_mem _ (List.mem_range.mpr hi), hev⟩

/-! ### Claim theorems: the multi-layer lowering -/

/-- C2 counterexample: in a 2-layer bidirectional invocation the four GRU
nodes are wired so that layer 1's forward GRU consumes "n_x_0" (the
squeezed forward output of layer 0, i.e. the layer's input), while layer
1's reverse GRU consumes "n_x_1", the squeezed *reverse* output of layer 0
— not the per-layer input "n_x_0" the claim requires. -/
theorem cudnn_reverse_chain_cex :
    gruEvsOf (cudnnRNN cudnnBi2).1 =
      [GEvent.node "GRU" ["x", "n_W_0", "n_R_0", "n_B_0", "", "n_H_0"]
         ["n_Y_0", "n_YH_0"]
         [("direction", AttrV.str "forward"), ("hidden_size", AttrV.int 3)],
       GEvent.node "GRU" ["x", "n_W_1", "n_R_1", "n_B_1", "", "n_H_1"]
         ["n_Y_1", "n_YH_1"]
         [("direction", AttrV.str "reverse"), ("hidden_size", AttrV.int 3)],
       GEvent.node "GRU" ["n_x_0", "n_W_2", "n_R_2", "n_B_2", "", "n_H_2"]
         ["n_Y_2", "n_YH_2"]
         [("direction", AttrV.str "forward"), ("hidden_size", AttrV.int 3)],
       GEvent.node "GRU" ["n_x_1", "n_W_3", "n_R_3", "n_B_3", "", "n_H_3"]
         ["n_Y_3", "n_YH_3"]
         [("direction", AttrV.str "reverse"), ("hidden_size", AttrV.int 3)]] ∧
    ("n_x_1" : String) ≠ "n_x_0" := by
  refine ⟨by decide, by decide⟩

/-- C2 amended: each layer's forward GRU consumes the forward chain value
(the original input for layer 0, then the previous layer's squeezed
forward output) and each reverse GRU consumes the backward chain value
(the original input for layer 0, then the previous layer's squeezed
*reverse* output, not the layer's forward input); the fused node's first
output is bound to the feature-axis Concat of the last forward and
backward chain values when bidirectional and to an Identity of the forward
chain value otherwise, and its second output to the Concat, along axis 0,
of all final hidden states in layer-then-direction order. -/
theorem cudnn_layer_wiring_amended (a : CudnnArgs) (h1 : a.rnn_mode = "gru")
    (h2 : a.dropout = 0) (h3 : a.input_mode = "linear_input") :
    (∀ i, i < cudnnNumLayers a →
      fwdGRUEv a.name a.xName (cudnnNumDirs a) (cudnnHidden a) i ∈
        (cudnnRNN a).1 ∧
      (cudnnNumDirs a = 2 →
        bwdGRUEv a.name a.xName (cudnnHidden a) i ∈ (cudnnRNN a).1)) ∧
    (cudnnRNN a).1 =
      cudnnHeadEvs a ++
      ((List.range (cudnnNumLayers a)).map
        (layerEvs a.name a.xName (cudnnNumDirs a) (cudnnHidden a))).flatten ++
      cudnnTailEvs a
        (fwdChainName a.name a.xName (cudnnNumDirs a) (cudnnNumLayers a))
        (if cudnnNumDirs a = 2 then
          bwdChainName a.name a.xName (cudnnNumLayers a)
         else a.xName) := by
  have htr : (cudnnRNN a).1 = cudnnTraceOf a := by rw [cudnn_run a h1 h2 h3]
  have hchain : (gruChain a.name a.xName (cudnnNumDirs a) (cudnnHidden a)
      (cudnnNumLayers a)).2.1 =
      (if cudnnNumDirs a = 2 then
        bwdChainName a.name a.xName (cudnnNumLayers a)
       else a.xName) := by
    by_cases hd : cudnnNumDirs a = 2
    · rw [hd, if_pos rfl]
      exact gruChain_snd_bi _ _ _ _
    · have hd1 : cudnnNumDirs a = 1 := by
        unfold cudnnNumDirs at hd ⊢
        split_ifs at hd ⊢ <;> simp_all
      rw [hd1, if_neg (by rw [hd1] at hd; exact hd)]
      exact gruChain_snd_uni _ _ _ _
  constructor
  · intro i hi
    have hmemtr : ∀ ev : GEvent,
        ev ∈ layerEvs a.name a.xName (cudnnNumDirs a) (cudnnHidden a) i →
        ev ∈ (cudnnRNN a).1 := by
      intro ev hev
      rw [htr]
      simp only [cudnnTraceOf, List.mem_append]
      left; right
      rw [gruChain_evs]
      exact mem_chain_evs _ _ _ _ hi hev
    refine ⟨hmemtr _ (fwd_mem_layerEvs _ _ _ _ _), fun hD => hmemtr _ ?_⟩
    rw [hD]
    exact bwd_mem_layerEvs _ _ _ _
  · rw [htr]
    simp only [cudnnTraceOf]
    rw [gruChain_evs, gruChain_fst, hchain]

/-- Witness for the amended C2 at the 2-layer bidirectional instance:
layer 1's reverse GRU consumes the backward chain value "n_x_1". -/
theorem cudnn_layer_wiring_amended_witness :
    cudnnNumLayers cudnnBi2 = 2 ∧ cudnnNumDirs cudnnBi2 = 2 ∧
    bwdGRUEv "n" "x" 3 1 ∈ (cudnnRNN cudnnBi2).1 ∧
    bwdChainName "n" "x" 1 = "n_x_1" := by
  have h := cudnn_layer_wiring_amended cudnnBi2 rfl rfl rfl
  exact ⟨by decide, by decide, (h.1 1 (by decide)).2 (by decide), by decide⟩

/-- C6 counterexample: with an initial-hidden-state leading dimension 3 and
direction count 2, the routine succeeds (no ShapeMismatch), slices the
parameter blob, and silently truncates the layer count to 1, so that
layer count times direction count is 2, not 3. -/
theorem cudnn_truncation_cex :
    (cudnnRNN cudnnOdd).2 = .ok () ∧
    cudnnOdd.hShape.getD 0 0 = 3 ∧
    cudnnNumDirs cudnnOdd = 2 ∧
    cudnnNumLayers cudnnOdd = 1 ∧
    cudnnNumLayers cudnnOdd * cudnnNumDirs cudnnOdd ≠ 3 ∧
    GEvent.node "Slice" ["p", "zero", "w_end"] ["W_flattened"] [] ∈
      (cudnnRNN cudnnOdd).1 := by
  refine ⟨by rfl, by decide, by decide, by decide, by decide, by decide⟩

/-- C6 amended: the layer count is the truncated integer division of the
initial-hidden-state leading dimension by the direction count; after the
three attribute checks pass the routine always succeeds — a non-exact
division is silently truncated (the loop synthesizes layer-count times
direction-count GRU nodes), never rejected with a ShapeMismatch. -/
theorem cudnn_layer_count_truncates_amended (a : CudnnArgs)
    (h1 : a.rnn_mode = "gru") (h2 : a.dropout = 0)
    (h3 : a.input_mode = "linear_input") :
    (cudnnRNN a).2 = .ok () ∧
    (cudnnRNN a).1.countP isGRUEv = cudnnNumLayers a * cudnnNumDirs a := by
  have hrun := cudnn_run a h1 h2 h3
  refine ⟨by rw [hrun], ?_⟩
  rw [hrun]
  show (cudnnTraceOf a).countP isGRUEv = _
  simp only [cudnnTraceOf, List.countP_append]
  rw [countP_head_gru, gruChain_evs, countP_chain_gru, countP_tail_gru]
  unfold cudnnNumDirs
  by_cases hd : a.direction = "unidirectional" <;> simp [hd]

/-- Witness for the amended C6 at the valid unidirectional instance. -/
theorem cudnn_layer_count_truncates_amended_witness :
    ((cudnnRNN cudnnUni).2 = .ok () ∧
      (cudnnRNN cudnnUni).1.countP isGRUEv =
        cudnnNumLayers cudnnUni * cudnnNumDirs cudnnUni) ∧
    cudnnNumLayers cudnnUni * cudnnNumDirs cudnnUni = 1 :=
  ⟨cudnn_layer_count_truncates_amended cudnnUni rfl rfl rfl, by decide⟩

/-- C7 counterexample: requesting recurrence mode "lstm" fails eagerly with
the fixed message "rnn mode other than gru are not supported yet" and
creates nothing, but the message does not contain the offending node's
name "cudnn_node". -/
theorem cudnn_unsupported_attr_cex :
    cudnnRNN cudnnBadMode =
      ([], .error (.unsupported "rnn mode other than gru are not supported yet")) ∧
    cudnnBadMode.name = "cudnn_node" ∧
    strHas "rnn mode other than gru are not supported yet" "cudnn_node" = false := by
  refine ⟨by rfl, by rfl, by decide⟩

/-- C7 amended: an unsupported recurrence mode, a non-zero dropout, or an
unsupported input-wiring mode makes the routine fail eagerly with an
unsupported-configuration error naming the violated constraint (but not
the offending node), before any constant or primitive node is created. -/
theorem cudnn_attr_validation_amended (a : CudnnArgs) :
    (a.rnn_mode ≠ "gru" →
      cudnnRNN a =
        ([], .error (.unsupported "rnn mode other than gru are not supported yet"))) ∧
    (a.rnn_mode = "gru" → a.dropout ≠ 0 →
      cudnnRNN a = ([], .error (.unsupported "dropout not supported yet"))) ∧
    (a.rnn_mode = "gru" → a.dropout = 0 → a.input_mode ≠ "linear_input" →
      cudnnRNN a = ([], .error (.unsupported "input mode must be linear input"))) := by
  refine ⟨?_, ?_, ?_⟩
  · intro h
    unfold cudnnRNN
    rw [if_pos h]
  · intro hm hd
    unfold cudnnRNN
    rw [if_neg (by simp [hm]), if_pos hd]
  · intro hm hd hi
    unfold cudnnRNN
    rw [if_neg (by simp [hm]), if_neg (by simp [hd]), if_pos hi]

/-- Witness for the amended C7: all three rejection paths exercised on
concrete invocations. -/
theorem cudnn_attr_validation_amended_witness :
    cudnnRNN cudnnBadMode =
      ([], .error (.unsupported "rnn mode other than gru are not supported yet")) ∧
    cudnnRNN cudnnBadDrop =
      ([], .error (.unsupported "dropout not supported yet")) ∧
    cudnnRNN cudnnBadInput =
      ([], .error (.unsupported "input mode must be linear input")) :=
  ⟨(cudnn_attr_validation_amended cudnnBadMode).1 (by decide),
   (cudnn_attr_validation_amended cudnnBadDrop).2.1 rfl
     (by norm_num [cudnnBadDrop, cudnnBi2]),
   (cudnn_attr_validation_amended cudnnBadInput).2.2 rfl rfl (by decide)⟩

/-- C8 counterexample: in the gated-cell routine the fused node is never
removed (zero removal events, so not "exactly once"); in the multi-layer
routine the removal event precedes the nodes that produce the fused node's
two outputs, so the node is deleted before its replacement outputs
exist. -/
theorem fused_node_removal_order_cex :
    (lstmBlockCell lstmGood).1.countP isRemoveEv = 0 ∧
    (cudnnRNN cudnnUni).1.findIdx isRemoveEv <
      (cudnnRNN cudnnUni).1.findIdx (producesOut "y0") ∧
    (cudnnRNN cudnnUni).1.findIdx (producesOut "y0") <
      (cudnnRNN cudnnUni).1.length ∧
    (cudnnRNN cudnnUni).1.findIdx isRemoveEv <
      (cudnnRNN cudnnUni).1.findIdx (producesOut "y1") ∧
    (cudnnRNN cudnnUni).1.findIdx (producesOut "y1") <
      (cudnnRNN cudnnUni).1.length := by
  refine ⟨by decide, by decide, by decide, by decide, by decide⟩

/-- C8 amended: the gated-cell routine removes nothing — it rewires all
seven outputs to replacement values and leaves the fused node in place;
the multi-layer routine removes the fused node exactly once, after the
per-layer synthesis but immediately before the two nodes that are created
bearing the fused node's original output references. -/
theorem fused_node_removal_amended :
    (∀ {nI hS : ℕ} (a : LSTMArgs nI hS), a.wShape = [(nI : ℤ) + hS, 4 * hS] →
      (lstmBlockCell a).1.countP isRemoveEv = 0 ∧
      (lstmBlockCell a).1.filterMap replacedOld =
        [a.outs 0, a.outs 1, a.outs 2, a.outs 3, a.outs 4, a.outs 5,
         a.outs 6]) ∧
    (∀ a : CudnnArgs, a.rnn_mode = "gru" → a.dropout = 0 →
        a.input_mode = "linear_input" →
      (cudnnRNN a).1.countP isRemoveEv = 1 ∧
      ∃ pre xnf xnb, (cudnnRNN a).1 = pre ++ cudnnTailEvs a xnf xnb ∧
        pre.countP isRemoveEv = 0) := by
  constructor
  · intro nI hS a hw
    rw [lstm_run a hw]
    exact ⟨lstm_trace_no_remove a, lstm_replace_olds a⟩
  · intro a h1 h2 h3
    rw [cudnn_run a h1 h2 h3]
    constructor
    · show (cudnnTraceOf a).countP isRemoveEv = 1
      simp only [cudnnTraceOf, List.countP_append]
      rw [countP_head_remove, gruChain_evs, countP_chain_remove,
        countP_tail_remove]
    · refine ⟨cudnnHeadEvs a ++
        (gruChain a.name a.xName (cudnnNumDirs a) (cudnnHidden a)
          (cudnnNumLayers a)).2.2,
        (gruChain a.name a.xName (cudnnNumDirs a) (cudnnHidden a)
          (cudnnNumLayers a)).1,
        (gruChain a.name a.xName (cudnnNumDirs a) (cudnnHidden a)
          (cudnnNumLayers a)).2.1, rfl, ?_⟩
      rw [List.countP_append, countP_head_remove, gruChain_evs,
        countP_chain_remove]

/-- Witness for the amended C8 at concrete valid invocations of both
routines. -/
theorem fused_node_removal_amended_witness :
    (lstmBlockCell lstmGood).1.countP isRemoveEv = 0 ∧
    (cudnnRNN cudnnUni).1.countP isRemoveEv = 1 :=
  ⟨(fused_node_removal_amended.1 lstmGood (by decide)).1,
   (fused_node_removal_amended.2 cudnnUni rfl rfl rfl).1⟩

/-- C9: the rewiring step replaces, in place and order-preservingly, every
occurrence of the old reference in every node's input list (all other
inputs unchanged), copies the old reference's recorded element type and
shape onto the new reference while leaving every other reference's
records untouched, is idempotent per call, and is invoked exactly once for
each of the gated-cell node's seven outputs. -/
theorem replace_output_rewiring :
    (∀ (g : RGraph) (old new : String) (k : ℕ) (nd : RNode),
      g.nodes[k]? = some nd →
      (replaceOutputStep g old new).nodes[k]? = some (substNode old new nd)) ∧
    (∀ (g : RGraph) (old new : String),
      (replaceOutputStep g old new).dtypes new = g.dtypes old ∧
      (replaceOutputStep g old new).shapes new = g.shapes old ∧
      ∀ r, r ≠ new → (replaceOutputStep g old new).dtypes r = g.dtypes r ∧
        (replaceOutputStep g old new).shapes r = g.shapes r) ∧
    (∀ (old new : String) (nd : RNode),
      (substNode old new nd).name = nd.name ∧
      (substNode old new nd).op = nd.op ∧
      (substNode old new nd).outputs = nd.outputs ∧
      (substNode old new nd).inputs.length = nd.inputs.length ∧
      ∀ r, r ≠ old → substRef old new r = r) ∧
    (∀ (g : RGraph) (old new : String),
      replaceOutputStep (replaceOutputStep g old new) old new =
        replaceOutputStep g old new) ∧
    (∀ {nI hS : ℕ} (a : LSTMArgs nI hS), a.wShape = [(nI : ℤ) + hS, 4 * hS] →
      (lstmBlockCell a).1.filterMap replacedOld =
        [a.outs 0, a.outs 1, a.outs 2, a.outs 3, a.outs 4, a.outs 5,
         a.outs 6]) := by
  refine ⟨?_, ?_, ?_, ?_, ?_⟩
  · intro g old new k nd hk
    simp only [replaceOutputStep, copyShape, copyDtype, replaceAllInputs]
    rw [List.getElem?_map, hk]
    rfl
  · intro g old new
    refine ⟨by simp [replaceOutputStep, copyShape, copyDtype, replaceAllInputs],
      by simp [replaceOutputStep, copyShape, copyDtype, replaceAllInputs], ?_⟩
    intro r hr
    constructor <;>
      simp [replaceOutputStep, copyShape, copyDtype, replaceAllInputs, hr]
  · intro old new nd
    refine ⟨rfl, rfl, rfl, by simp [substNode], ?_⟩
    intro r hr
    unfold substRef
    rw [if_neg hr]
  · intro g old new
    refine RGraph.ext ?_ ?_ ?_
    · simp only [replaceOutputStep, copyShape, copyDtype, replaceAllInputs,
        List.map_map]
      apply List.map_congr_left
      intro nd _
      exact substNode_idem old new nd
    · funext r
      by_cases hr : r = new
      · simp only [replaceOutputStep, copyShape, copyDtype, replaceAllInputs,
          hr, if_pos rfl]
        split_ifs <;> rfl
      · simp [replaceOutputStep, copyShape, copyDtype, replaceAllInputs, hr]
    · funext r
      by_cases hr : r = new
      · simp only [replaceOutputStep, copyShape, copyDtype, replaceAllInputs,
          hr, if_pos rfl]
        split_ifs <;> rfl
      · simp [replaceOutputStep, copyShape, copyDtype, replaceAllInputs, hr]
  · intro nI hS a hw
    rw [lstm_run a hw]
    exact lstm_replace_olds a

/-- Witness for C9 on a one-node graph: the consumer's first input is
rewired from "old0" to "new0" in place, dtype and shape are copied onto
"new0", and repeating the call changes nothing. -/
theorem replace_output_rewiring_witness :
    (replaceOutputStep rgraph0 "old0" "new0").nodes[0]? =
      some { name := "consumer", op := "Mul", inputs := ["new0", "c"],
             outputs := ["z"] } ∧
    (replaceOutputStep rgraph0 "old0" "new0").dtypes "new0" =
      some Dtype.float32 ∧
    (replaceOutputStep rgraph0 "old0" "new0").shapes "new0" = some [1, 2] ∧
    replaceOutputStep (replaceOutputStep rgraph0 "old0" "new0") "old0" "new0" =
      replaceOutputStep rgraph0 "old0" "new0" := by
  have h := replace_output_rewiring
  refine ⟨?_, ?_, ?_, h.2.2.2.1 rgraph0 "old0" "new0"⟩
  · have hk := h.1 rgraph0 "old0" "new0" 0
      { name := "consumer", op := "Mul", inputs := ["old0", "c"],
        outputs := ["z"] } (by rfl)
    refine hk.trans ?_
    decide
  · exact (h.2.1 rgraph0 "old0" "new0").1.trans (by rfl)
  · exact (h.2.1 rgraph0 "old0" "new0").2.1.trans (by rfl)

end RnnLower
